import Mathlib

/-!
Verification of the cart-pole physics core in
`src/gym/envs/classic_control/cartpole.py`.

The file embeds the two environment classes of that module:

* `CartPoleEnv` (variant A): the single-step Euler model (`_step`, lines 56-89).
* `AdaptedCartPoleEnv` (variant B): the multi-substep model with wall-bounce
  restitution and angle wrapping (`_step`, lines 192-309).

Modelling conventions:

* Python floats are modelled as exact rationals (`ℚ`); the arithmetic of the
  source is transcribed literally, without floating-point rounding.
* `math.pi` is the rational value of the IEEE-754 double that Python's
  `math.pi` denotes (`piQ` below).
* `math.cos` / `math.sin` are abstract functions `ℚ → ℚ`, bundled in `Trig`
  and passed as a parameter: every theorem quantifies over them, and concrete
  evaluations use `trig0`, which agrees with the IEEE double functions at the
  only argument (θ = 0, where cos 0 = 1.0 and sin 0 = 0.0 exactly) at which
  those evaluations consult it.
* The mutable fields `self.state` and `self.steps_beyond_done` become an
  explicit environment record `Env` threaded through `step`.
* The one `logger.warning` call is modelled as a Boolean `warned` output flag.
-/

/-- The exact rational value of the IEEE-754 double `math.pi`
(0x400921FB54442D18 = 884279719003555 / 2^48). -/
def piQ : ℚ := 884279719003555 / 281474976710656

/-- Abstract model of the float `math.cos` / `math.sin` functions. -/
structure Trig where
  cos : ℚ → ℚ
  sin : ℚ → ℚ

/-- A concrete trig model used for closed evaluations.  It agrees with the
IEEE double `math.cos` / `math.sin` exactly at θ = 0 (`cos 0.0 = 1.0`,
`sin 0.0 = 0.0`), the only point at which the closed evaluations in this file
consult the trig functions in a value-relevant way. -/
def trig0 : Trig where
  cos := fun θ => if θ = 0 then 1 else 0
  sin := fun _ => 0

/-- The 4-tuple `(x, x_dot, theta, theta_dot)` held in `self.state`. -/
structure StateQ where
  x : ℚ
  x_dot : ℚ
  theta : ℚ
  theta_dot : ℚ
deriving DecidableEq, Repr

/-- Mutable environment data of one env instance: `self.state` and
`self.steps_beyond_done`. -/
structure Env where
  state : StateQ
  steps_beyond_done : Option ℕ
deriving DecidableEq, Repr

/-- The non-state outputs of one `_step` call: the returned reward and done
flag, plus whether this call emitted the misuse warning. -/
structure Out where
  reward : ℚ
  done : Bool
  warned : Bool
deriving DecidableEq, Repr

/-- The loop `while theta >= math.pi: theta -= 2.0 * math.pi`
(cartpole.py lines 237-238). -/
def wrapDown (θ : ℚ) : ℚ :=
  if piQ ≤ θ then wrapDown (θ - 2 * piQ) else θ
termination_by (Int.ceil (θ / (2 * piQ))).toNat
decreasing_by
  have hpi : (0:ℚ) < piQ := by norm_num [piQ]
  have h2pi : (0:ℚ) < 2 * piQ := by linarith
  have hθ : (0:ℚ) < θ / (2 * piQ) :=
    div_pos (lt_of_lt_of_le hpi (by assumption)) h2pi
  have hceil : 0 < Int.ceil (θ / (2 * piQ)) := Int.ceil_pos.mpr hθ
  have harg : (θ - 2 * piQ) / (2 * piQ) = θ / (2 * piQ) - 1 := by
    field_simp
  rw [harg, Int.ceil_sub_one]
  omega

/-- The loop `while theta < -math.pi: theta += 2.0 * math.pi`
(cartpole.py lines 240-241). -/
def wrapUp (θ : ℚ) : ℚ :=
  if θ < -piQ then wrapUp (θ + 2 * piQ) else θ
termination_by (Int.ceil (-θ / (2 * piQ))).toNat
decreasing_by
  have hpi : (0:ℚ) < piQ := by norm_num [piQ]
  have h2pi : (0:ℚ) < 2 * piQ := by linarith
  have hθ : (0:ℚ) < -θ / (2 * piQ) := by
    apply div_pos _ h2pi
    have : θ < -piQ := by assumption
    linarith
  have hceil : 0 < Int.ceil (-θ / (2 * piQ)) := Int.ceil_pos.mpr hθ
  have harg : -(θ + 2 * piQ) / (2 * piQ) = -θ / (2 * piQ) - 1 := by
    field_simp
    ring
  rw [harg, Int.ceil_sub_one]
  omega

/-- The two normalization loops of variant B's sub-step, in source order:
first the `>= pi` loop, then the `< -pi` loop. -/
def wrapTheta (θ : ℚ) : ℚ := wrapUp (wrapDown θ)

/-- The acceleration computation of variant A (`CartPoleEnv._step`,
lines 60-65), parametric in the configuration constants: `g` = gravity,
`mp` = pole mass, `tm` = total mass, `len` = the length factor of the θ̈
denominator, `pml` = pole-mass·length.  Returns `(thetaacc, xacc)`. -/
def accelsAform (g mp tm len pml : ℚ) (t : Trig) (force : ℚ) (s : StateQ) :
    ℚ × ℚ :=
  let costheta := t.cos s.theta
  let sintheta := t.sin s.theta
  let temp := (force + pml * s.theta_dot * s.theta_dot * sintheta) / tm
  let thetaacc := (g * sintheta - costheta * temp) /
    (len * (4 / 3 - mp * costheta * costheta / tm))
  let xacc := temp - pml * thetaacc * costheta / tm
  (thetaacc, xacc)

namespace CartPoleEnv

def gravity : ℚ := 9.8
def masscart : ℚ := 1.0
def masspole : ℚ := 0.1
def total_mass : ℚ := masspole + masscart
def length : ℚ := 0.5
def polemass_length : ℚ := masspole * length
def force_mag : ℚ := 10.0
def tau : ℚ := 0.02
def theta_threshold_radians : ℚ := 12 * 2 * piQ / 360
def x_threshold : ℚ := 2.4

/-- `force = self.force_mag if action==1 else -self.force_mag` (line 59). -/
def forceOf (action : ℤ) : ℚ := if action = 1 then force_mag else -force_mag

/-- The physics update of `CartPoleEnv._step` (lines 60-70): accelerations
via `accelsAform` at this variant's constants, then one Euler step of
duration `tau`. -/
def physics (t : Trig) (force : ℚ) (s : StateQ) : StateQ :=
  let acc := accelsAform gravity masspole total_mass length polemass_length
    t force s
  let thetaacc := acc.1
  let xacc := acc.2
  ⟨s.x + tau * s.x_dot, s.x_dot + tau * xacc,
   s.theta + tau * s.theta_dot, s.theta_dot + tau * thetaacc⟩

/-- The termination test of `CartPoleEnv._step` (lines 72-75). -/
def isDone (s : StateQ) : Bool :=
  decide (s.x < -x_threshold) || decide (x_threshold < s.x) ||
  decide (s.theta < -theta_threshold_radians) ||
  decide (theta_threshold_radians < s.theta)

/-- `CartPoleEnv._step` (lines 56-89), after the action assertion: physics
update, termination test, and the reward / `steps_beyond_done` / warning
bookkeeping. -/
def step (t : Trig) (e : Env) (action : ℤ) : Env × Out :=
  let s := physics t (forceOf action) e.state
  let done := isDone s
  if done = false then (⟨s, e.steps_beyond_done⟩, ⟨1.0, done, false⟩)
  else
    match e.steps_beyond_done with
    | none => (⟨s, some 0⟩, ⟨1.0, done, false⟩)
    | some k => (⟨s, some (k + 1)⟩, ⟨0.0, done, decide (k = 0)⟩)

/-- `spaces.Discrete(2).contains`: an integer action is valid iff it lies in
`[0, 2)`. -/
def contains (a : ℤ) : Bool := decide (0 ≤ a) && decide (a < 2)

/-- `_step` together with its leading `assert self.action_space.contains(action)`
(line 57): `none` models the failed assertion. -/
def stepChecked (t : Trig) (e : Env) (a : ℤ) : Option (Env × Out) :=
  if contains a then some (step t e a) else none

end CartPoleEnv

namespace AdaptedCartPoleEnv

def gravity : ℚ := 9.8
def masscart : ℚ := 1.0
def masspole : ℚ := 0.15
def total_mass : ℚ := masspole + masscart
def length : ℚ := 0.75
def polemass_length : ℚ := masspole * length
def force_mag : ℚ := 10.0
def tau : ℚ := 0.02
def theta_threshold_radians : ℚ := 12 * 2 * piQ / 360
def x_threshold : ℚ := 10
def time_step : ℚ := 0.1
def restitution : ℚ := 0.8

/-- `sim_steps = int(math.ceil(self.time_step / 0.01))` (line 197). -/
def sim_steps : ℕ := (Int.ceil (time_step / 0.01)).toNat

/-- `simu_time = self.time_step / sim_steps` (line 198). -/
def simu_time : ℚ := time_step / (sim_steps : ℚ)

/-- `force = self.force_mag if action == 1 else -self.force_mag` (line 196). -/
def forceOf (action : ℤ) : ℚ := if action = 1 then force_mag else -force_mag

/-- The acceleration computation of `AdaptedCartPoleEnv._step`
(lines 201-207): as in variant A except that the θ̈ denominator uses
`(self.length / 2.0)`.  Returns `(thetaacc, xacc)`. -/
def accels (t : Trig) (force : ℚ) (s : StateQ) : ℚ × ℚ :=
  let costheta := t.cos s.theta
  let sintheta := t.sin s.theta
  let temp := (force + polemass_length * s.theta_dot * s.theta_dot * sintheta) /
    total_mass
  let thetaacc := (gravity * sintheta - costheta * temp) /
    ((length / 2) * (4 / 3 - masspole * costheta * costheta / total_mass))
  let xacc := temp - polemass_length * thetaacc * costheta / total_mass
  (thetaacc, xacc)

/-- `AdaptedCartPoleEnv._is_in_range` (lines 311-313): the Python chained
comparison `max_value <= value >= min_value`, i.e.
`max_value <= value and value >= min_value`. -/
def is_in_range (value min_value max_value : ℚ) : Bool :=
  decide (max_value ≤ value) && decide (min_value ≤ value)

/-- The wall-bounce guard `isOOB and not wasOOB` (line 260) as a function of
the pre-update and post-update cart positions. -/
def bounceCond (old_x x : ℚ) : Bool :=
  is_in_range x (-x_threshold) x_threshold &&
  !(is_in_range old_x (-x_threshold) x_threshold)

/-- One iteration of the sub-step loop of `AdaptedCartPoleEnv._step`
(lines 200-294): accelerations, Euler integration over `simu_time`, angle
normalization, wall bounce, and velocity clamping. -/
def subStep (t : Trig) (force : ℚ) (s : StateQ) : StateQ :=
  let acc := accels t force s
  let thetaacc := acc.1
  let xacc := acc.2
  let old_x := s.x
  let x := s.x + simu_time * s.x_dot
  let x_dot := s.x_dot + simu_time * xacc
  let theta := wrapTheta (s.theta + simu_time * s.theta_dot)
  let theta_dot := s.theta_dot + simu_time * thetaacc
  let x_dot := if bounceCond old_x x then
      let xd := x_dot * restitution
      if x_threshold < x then -|xd|
      else if x < -x_threshold then |xd|
      else xd
    else x_dot
  let x_dot := max (min x_dot 10) (-10)
  let theta_dot := max (min theta_dot 10) (-10)
  ⟨x, x_dot, theta, theta_dot⟩

/-- The termination test of `AdaptedCartPoleEnv._step`
(`math.fabs(x) > self.x_threshold or math.fabs(theta) > 0.2 * math.pi`,
lines 288 and 293). -/
def isDone (s : StateQ) : Bool :=
  decide (x_threshold < |s.x|) || decide (0.2 * piQ < |s.theta|)

/-- The sub-step loop `for i in range(sim_steps)` with its early
`if done: break` (lines 200-289), by fuel on the remaining iteration count. -/
def runSubsteps (t : Trig) (force : ℚ) : ℕ → StateQ → StateQ
  | 0, s => s
  | n + 1, s =>
    let s2 := subStep t force s
    if isDone s2 then s2 else runSubsteps t force n s2

/-- `AdaptedCartPoleEnv._step` (lines 192-309), after the action assertion:
the sub-step loop, the final termination test, and the reward /
`steps_beyond_done` / warning bookkeeping. -/
def step (t : Trig) (e : Env) (action : ℤ) : Env × Out :=
  let s := runSubsteps t (forceOf action) sim_steps e.state
  let done := isDone s
  if done = false then
    (⟨s, e.steps_beyond_done⟩, ⟨0.2 * piQ - |s.theta|, done, false⟩)
  else
    match e.steps_beyond_done with
    | none => (⟨s, some 0⟩, ⟨0.2 * piQ - |s.theta|, done, false⟩)
    | some k => (⟨s, some (k + 1)⟩, ⟨0.0, done, decide (k = 0)⟩)

/-- `spaces.Discrete(2).contains`: an integer action is valid iff it lies in
`[0, 2)`. -/
def contains (a : ℤ) : Bool := decide (0 ≤ a) && decide (a < 2)

/-- `_step` together with its leading `assert self.action_space.contains(action)`
(line 193): `none` models the failed assertion. -/
def stepChecked (t : Trig) (e : Env) (a : ℤ) : Option (Env × Out) :=
  if contains a then some (step t e a) else none

/-- The wall-bounce guard of a sub-step starting from state `s`: the guard
`isOOB and not wasOOB` evaluated at `old_x = s.x` and the post-update
`x = s.x + simu_time * s.x_dot`. -/
def bounceFires (s : StateQ) : Bool :=
  bounceCond s.x (s.x + simu_time * s.x_dot)

end AdaptedCartPoleEnv

/-- Variant A's state update as worded by the specification: force mapped from
the action, `temp`, `θ̈`, `ẍ` by the quoted formulas, position and angle
updated with the start-of-step velocities, velocities updated with the
accelerations.  This is the spec-side definition that claim C6 compares with
the code-side `CartPoleEnv.step`. -/
def physicsSpecA (t : Trig) (force : ℚ) (s : StateQ) : StateQ :=
  let temp := (force + CartPoleEnv.polemass_length * s.theta_dot ^ 2 *
    t.sin s.theta) / CartPoleEnv.total_mass
  let thetaacc := (CartPoleEnv.gravity * t.sin s.theta - t.cos s.theta * temp) /
    (CartPoleEnv.length *
      (4 / 3 - CartPoleEnv.masspole * (t.cos s.theta) ^ 2 /
        CartPoleEnv.total_mass))
  let xacc := temp - CartPoleEnv.polemass_length * thetaacc * t.cos s.theta /
    CartPoleEnv.total_mass
  ⟨s.x + CartPoleEnv.tau * s.x_dot, s.x_dot + CartPoleEnv.tau * xacc,
   s.theta + CartPoleEnv.tau * s.theta_dot, s.theta_dot + CartPoleEnv.tau * thetaacc⟩

/-- The number of misuse warnings emitted by a sequence of `step` calls with
the given actions, starting from environment `e`. -/
def runWarns (stepF : Env → ℤ → Env × Out) : Env → List ℤ → ℕ
  | _, [] => 0
  | e, a :: rest =>
    let r := stepF e a
    (if r.2.warned then 1 else 0) + runWarns stepF r.1 rest

/-- The warning discipline shared by both variants' bookkeeping: a call with
counter `some (j+1)` never warns and keeps a positive counter; a warning call
leaves a positive counter; a call with counter `none` or `some 0` either warns
or keeps the counter in `{none, some 0}`. -/
def WarnDiscipline (f : Env → ℤ → Env × Out) : Prop :=
  (∀ e a j, e.steps_beyond_done = some (j + 1) →
    (f e a).2.warned = false ∧
    ∃ j2, (f e a).1.steps_beyond_done = some (j2 + 1)) ∧
  (∀ e a, (f e a).2.warned = true →
    ∃ j2, (f e a).1.steps_beyond_done = some (j2 + 1)) ∧
  (∀ e a, (e.steps_beyond_done = none ∨ e.steps_beyond_done = some 0) →
    (f e a).2.warned = true ∨
    (f e a).1.steps_beyond_done = none ∨ (f e a).1.steps_beyond_done = some 0)

/-! ## Properties of the angle-normalization loops -/

theorem wrapDown_of_lt {θ : ℚ} (h : θ < piQ) : wrapDown θ = θ := by
  rw [wrapDown]
  simp [not_le.mpr h]

theorem wrapDown_of_ge {θ : ℚ} (h : piQ ≤ θ) :
    wrapDown θ = wrapDown (θ - 2 * piQ) := by
  rw [wrapDown]
  simp [h]

theorem wrapUp_of_ge {θ : ℚ} (h : -piQ ≤ θ) : wrapUp θ = θ := by
  rw [wrapUp]
  simp [not_lt.mpr h]

theorem wrapUp_of_lt {θ : ℚ} (h : θ < -piQ) :
    wrapUp θ = wrapUp (θ + 2 * piQ) := by
  rw [wrapUp]
  simp [h]

theorem wrapDown_lt (θ : ℚ) : wrapDown θ < piQ := by
  have key : ∀ n : ℕ, ∀ θ : ℚ, (Int.ceil (θ / (2 * piQ))).toNat ≤ n →
      wrapDown θ < piQ := by
    intro n
    induction n with
    | zero =>
      intro θ hm
      rcases lt_or_le θ piQ with h | h
      · rw [wrapDown_of_lt h]; exact h
      · exfalso
        have hpi : (0:ℚ) < piQ := by norm_num [piQ]
        have hθ : (0:ℚ) < θ / (2 * piQ) :=
          div_pos (lt_of_lt_of_le hpi h) (by linarith)
        have := Int.ceil_pos.mpr hθ
        omega
    | succ n ih =>
      intro θ hm
      rcases lt_or_le θ piQ with h | h
      · rw [wrapDown_of_lt h]; exact h
      · rw [wrapDown_of_ge h]
        apply ih
        have hpi : (0:ℚ) < piQ := by norm_num [piQ]
        have hθ : (0:ℚ) < θ / (2 * piQ) :=
          div_pos (lt_of_lt_of_le hpi h) (by linarith)
        have hceil := Int.ceil_pos.mpr hθ
        have harg : (θ - 2 * piQ) / (2 * piQ) = θ / (2 * piQ) - 1 := by
          field_simp
        rw [harg, Int.ceil_sub_one]
        omega
  exact key (Int.ceil (θ / (2 * piQ))).toNat θ le_rfl

theorem wrapUp_ge (θ : ℚ) : -piQ ≤ wrapUp θ := by
  have key : ∀ n : ℕ, ∀ θ : ℚ, (Int.ceil (-θ / (2 * piQ))).toNat ≤ n →
      -piQ ≤ wrapUp θ := by
    intro n
    induction n with
    | zero =>
      intro θ hm
      rcases lt_or_le θ (-piQ) with h | h
      · exfalso
        have hpi : (0:ℚ) < piQ := by norm_num [piQ]
        have hθ : (0:ℚ) < -θ / (2 * piQ) :=
          div_pos (by linarith) (by linarith)
        have := Int.ceil_pos.mpr hθ
        omega
      · rw [wrapUp_of_ge h]; exact h
    | succ n ih =>
      intro θ hm
      rcases lt_or_le θ (-piQ) with h | h
      · rw [wrapUp_of_lt h]
        apply ih
        have hpi : (0:ℚ) < piQ := by norm_num [piQ]
        have hθ : (0:ℚ) < -θ / (2 * piQ) :=
          div_pos (by linarith) (by linarith)
        have hceil := Int.ceil_pos.mpr hθ
        have harg : -(θ + 2 * piQ) / (2 * piQ) = -θ / (2 * piQ) - 1 := by
          field_simp
          ring
        rw [harg, Int.ceil_sub_one]
        omega
      · rw [wrapUp_of_ge h]; exact h
  exact key (Int.ceil (-θ / (2 * piQ))).toNat θ le_rfl

theorem wrapUp_lt {θ : ℚ} (h : θ < piQ) : wrapUp θ < piQ := by
  have key : ∀ n : ℕ, ∀ θ : ℚ, (Int.ceil (-θ / (2 * piQ))).toNat ≤ n →
      θ < piQ → wrapUp θ < piQ := by
    intro n
    induction n with
    | zero =>
      intro θ hm hθlt
      rcases lt_or_le θ (-piQ) with h2 | h2
      · exfalso
        have hpi : (0:ℚ) < piQ := by norm_num [piQ]
        have hθ : (0:ℚ) < -θ / (2 * piQ) :=
          div_pos (by linarith) (by linarith)
        have := Int.ceil_pos.mpr hθ
        omega
      · rw [wrapUp_of_ge h2]; exact hθlt
    | succ n ih =>
      intro θ hm hθlt
      rcases lt_or_le θ (-piQ) with h2 | h2
      · rw [wrapUp_of_lt h2]
        have hpi : (0:ℚ) < piQ := by norm_num [piQ]
        apply ih
        · have hθ : (0:ℚ) < -θ / (2 * piQ) :=
            div_pos (by linarith) (by linarith)
          have hceil := Int.ceil_pos.mpr hθ
          have harg : -(θ + 2 * piQ) / (2 * piQ) = -θ / (2 * piQ) - 1 := by
            field_simp
            ring
          rw [harg, Int.ceil_sub_one]
          omega
        · linarith
      · rw [wrapUp_of_ge h2]; exact hθlt
  exact key (Int.ceil (-θ / (2 * piQ))).toNat θ le_rfl h

/-- The normalized angle always lies in the half-open interval `[-piQ, piQ)`. -/
theorem wrapTheta_mem (θ : ℚ) : -piQ ≤ wrapTheta θ ∧ wrapTheta θ < piQ :=
  ⟨wrapUp_ge _, wrapUp_lt (wrapDown_lt θ)⟩

/-- Evaluation of the normalization when the angle is already in range. -/
theorem wrapTheta_of_mem {θ : ℚ} (h1 : -piQ ≤ θ) (h2 : θ < piQ) :
    wrapTheta θ = θ := by
  rw [wrapTheta, wrapDown_of_lt h2, wrapUp_of_ge h1]

/-- Evaluation of the normalization at exactly `piQ`: the `>= pi` loop maps it
to `-piQ`. -/
theorem wrapTheta_pi : wrapTheta piQ = -piQ := by
  have hpi : (0:ℚ) < piQ := by norm_num [piQ]
  rw [wrapTheta, wrapDown_of_ge le_rfl]
  have : piQ - 2 * piQ = -piQ := by ring
  rw [this, wrapDown_of_lt (by linarith), wrapUp_of_ge le_rfl]

/-! ## Basic facts about the two step functions -/

theorem sim_steps_eq : AdaptedCartPoleEnv.sim_steps = 10 := by
  have h : AdaptedCartPoleEnv.time_step / 0.01 = (10 : ℚ) := by
    norm_num [AdaptedCartPoleEnv.time_step]
  rw [AdaptedCartPoleEnv.sim_steps, h]
  norm_num
  rfl

theorem subStep_x (t : Trig) (f : ℚ) (s : StateQ) :
    (AdaptedCartPoleEnv.subStep t f s).x =
      s.x + AdaptedCartPoleEnv.simu_time * s.x_dot := rfl

theorem subStep_theta (t : Trig) (f : ℚ) (s : StateQ) :
    (AdaptedCartPoleEnv.subStep t f s).theta =
      wrapTheta (s.theta + AdaptedCartPoleEnv.simu_time * s.theta_dot) := rfl

theorem subStep_theta_mem (t : Trig) (f : ℚ) (s : StateQ) :
    -piQ ≤ (AdaptedCartPoleEnv.subStep t f s).theta ∧
      (AdaptedCartPoleEnv.subStep t f s).theta < piQ := by
  rw [subStep_theta]
  exact wrapTheta_mem _

theorem runSubsteps_succ (t : Trig) (f : ℚ) (n : ℕ) (s : StateQ) :
    AdaptedCartPoleEnv.runSubsteps t f (n + 1) s =
      (if AdaptedCartPoleEnv.isDone (AdaptedCartPoleEnv.subStep t f s) then
        AdaptedCartPoleEnv.subStep t f s
      else AdaptedCartPoleEnv.runSubsteps t f n (AdaptedCartPoleEnv.subStep t f s)) :=
  rfl

theorem runSubsteps_theta_mem (t : Trig) (f : ℚ) :
    ∀ (n : ℕ) (s : StateQ),
      -piQ ≤ (AdaptedCartPoleEnv.runSubsteps t f (n + 1) s).theta ∧
        (AdaptedCartPoleEnv.runSubsteps t f (n + 1) s).theta < piQ := by
  intro n
  induction n with
  | zero =>
    intro s
    rw [runSubsteps_succ]
    split
    · exact subStep_theta_mem t f s
    · exact subStep_theta_mem t f s
  | succ n ih =>
    intro s
    rw [runSubsteps_succ]
    split
    · exact subStep_theta_mem t f s
    · exact ih _

theorem stepA_state (t : Trig) (e : Env) (a : ℤ) :
    (CartPoleEnv.step t e a).1.state =
      CartPoleEnv.physics t (CartPoleEnv.forceOf a) e.state := by
  simp only [CartPoleEnv.step]
  split
  · rfl
  · split <;> rfl

theorem stepB_state (t : Trig) (e : Env) (a : ℤ) :
    (AdaptedCartPoleEnv.step t e a).1.state =
      AdaptedCartPoleEnv.runSubsteps t (AdaptedCartPoleEnv.forceOf a)
        AdaptedCartPoleEnv.sim_steps e.state := by
  simp only [AdaptedCartPoleEnv.step]
  split
  · rfl
  · split <;> rfl

theorem stepA_done (t : Trig) (e : Env) (a : ℤ) :
    (CartPoleEnv.step t e a).2.done =
      CartPoleEnv.isDone (CartPoleEnv.physics t (CartPoleEnv.forceOf a) e.state) := by
  simp only [CartPoleEnv.step]
  split
  · rfl
  · split <;> rfl

theorem stepB_done (t : Trig) (e : Env) (a : ℤ) :
    (AdaptedCartPoleEnv.step t e a).2.done =
      AdaptedCartPoleEnv.isDone (AdaptedCartPoleEnv.runSubsteps t
        (AdaptedCartPoleEnv.forceOf a) AdaptedCartPoleEnv.sim_steps e.state) := by
  simp only [AdaptedCartPoleEnv.step]
  split
  · rfl
  · split <;> rfl

/-! ## The warning discipline of the post-termination bookkeeping -/

theorem stepA_warnDiscipline (t : Trig) : WarnDiscipline (CartPoleEnv.step t) := by
  refine ⟨?_, ?_, ?_⟩
  · intro e a j h
    simp only [CartPoleEnv.step, h]
    split
    · exact ⟨rfl, j, rfl⟩
    · exact ⟨by simp, j + 1, rfl⟩
  · intro e a hw
    rcases he : e.steps_beyond_done with _ | k
    · simp only [CartPoleEnv.step, he] at hw
      split at hw <;> simp at hw
    · simp only [CartPoleEnv.step, he] at hw ⊢
      split at hw
      · simp at hw
      · rename_i hc
        rw [if_neg hc]
        exact ⟨k, rfl⟩
  · intro e a h
    rcases h with h | h
    · simp only [CartPoleEnv.step, h]
      split
      · exact Or.inr (Or.inl rfl)
      · exact Or.inr (Or.inr rfl)
    · simp only [CartPoleEnv.step, h]
      split
      · exact Or.inr (Or.inr rfl)
      · exact Or.inl (by simp)

theorem stepB_warnDiscipline (t : Trig) :
    WarnDiscipline (AdaptedCartPoleEnv.step t) := by
  refine ⟨?_, ?_, ?_⟩
  · intro e a j h
    simp only [AdaptedCartPoleEnv.step, h]
    split
    · exact ⟨rfl, j, rfl⟩
    · exact ⟨by simp, j + 1, rfl⟩
  · intro e a hw
    rcases he : e.steps_beyond_done with _ | k
    · simp only [AdaptedCartPoleEnv.step, he] at hw
      split at hw <;> simp at hw
    · simp only [AdaptedCartPoleEnv.step, he] at hw ⊢
      split at hw
      · simp at hw
      · rename_i hc
        rw [if_neg hc]
        exact ⟨k, rfl⟩
  · intro e a h
    rcases h with h | h
    · simp only [AdaptedCartPoleEnv.step, h]
      split
      · exact Or.inr (Or.inl rfl)
      · exact Or.inr (Or.inr rfl)
    · simp only [AdaptedCartPoleEnv.step, h]
      split
      · exact Or.inr (Or.inr rfl)
      · exact Or.inl (by simp)

theorem runWarns_eq_zero (f : Env → ℤ → Env × Out)
    (h1 : ∀ e a j, e.steps_beyond_done = some (j + 1) →
      (f e a).2.warned = false ∧
      ∃ j2, (f e a).1.steps_beyond_done = some (j2 + 1)) :
    ∀ (acts : List ℤ) (e : Env) (j : ℕ),
      e.steps_beyond_done = some (j + 1) → runWarns f e acts = 0 := by
  intro acts
  induction acts with
  | nil => intro e j _; rfl
  | cons a rest ih =>
    intro e j h
    obtain ⟨hw, j2, hs⟩ := h1 e a j h
    simp only [runWarns, hw]
    simpa using ih _ j2 hs

theorem runWarns_le_one (f : Env → ℤ → Env × Out) (hf : WarnDiscipline f) :
    ∀ (acts : List ℤ) (e : Env),
      e.steps_beyond_done = none ∨ e.steps_beyond_done = some 0 →
      runWarns f e acts ≤ 1 := by
  obtain ⟨h1, h2, h3⟩ := hf
  intro acts
  induction acts with
  | nil => intro e _; simp [runWarns]
  | cons a rest ih =>
    intro e h
    simp only [runWarns]
    cases hw : (f e a).2.warned
    · rcases h3 e a h with hw' | hnone | hzero
      · rw [hw] at hw'; simp at hw'
      · simpa [hw] using ih (f e a).1 (Or.inl hnone)
      · simpa [hw] using ih (f e a).1 (Or.inr hzero)
    · obtain ⟨j2, hs⟩ := h2 e a hw
      have hz := runWarns_eq_zero f h1 rest (f e a).1 j2 hs
      simp [hw, hz]

/-! ## Concrete evaluations of variant B's sub-step -/

theorem simu_time_eq : AdaptedCartPoleEnv.simu_time = 1 / 100 := by
  rw [AdaptedCartPoleEnv.simu_time, sim_steps_eq]
  norm_num [AdaptedCartPoleEnv.time_step]

theorem subStep_x_dot (t : Trig) (f : ℚ) (s : StateQ) :
    (AdaptedCartPoleEnv.subStep t f s).x_dot =
      max (min
        (if AdaptedCartPoleEnv.bounceCond s.x
            (s.x + AdaptedCartPoleEnv.simu_time * s.x_dot) then
          if AdaptedCartPoleEnv.x_threshold <
              s.x + AdaptedCartPoleEnv.simu_time * s.x_dot then
            -|(s.x_dot + AdaptedCartPoleEnv.simu_time *
                (AdaptedCartPoleEnv.accels t f s).2) *
              AdaptedCartPoleEnv.restitution|
          else if s.x + AdaptedCartPoleEnv.simu_time * s.x_dot <
              -AdaptedCartPoleEnv.x_threshold then
            |(s.x_dot + AdaptedCartPoleEnv.simu_time *
                (AdaptedCartPoleEnv.accels t f s).2) *
              AdaptedCartPoleEnv.restitution|
          else (s.x_dot + AdaptedCartPoleEnv.simu_time *
              (AdaptedCartPoleEnv.accels t f s).2) *
            AdaptedCartPoleEnv.restitution
        else s.x_dot + AdaptedCartPoleEnv.simu_time *
          (AdaptedCartPoleEnv.accels t f s).2) 10) (-10) := rfl

theorem subStep_theta_dot (t : Trig) (f : ℚ) (s : StateQ) :
    (AdaptedCartPoleEnv.subStep t f s).theta_dot =
      max (min (s.theta_dot + AdaptedCartPoleEnv.simu_time *
        (AdaptedCartPoleEnv.accels t f s).1) 10) (-10) := rfl

theorem StateQ.ext4 {a b : StateQ} (hx : a.x = b.x) (hxd : a.x_dot = b.x_dot)
    (hth : a.theta = b.theta) (htd : a.theta_dot = b.theta_dot) : a = b := by
  cases a; cases b; simp_all

/-- Variant B's accelerations from any state with θ = 0, for any trig model
that is exact at 0 (as the IEEE double functions are). -/
theorem accels_at_zero (t : Trig) (hc : t.cos 0 = 1) (hs : t.sin 0 = 0)
    (f x xd θd : ℚ) :
    AdaptedCartPoleEnv.accels t f ⟨x, xd, 0, θd⟩ =
      (-(160 * f / 83), 2020 * f / 1909) := by
  simp only [AdaptedCartPoleEnv.accels, hc, hs,
    AdaptedCartPoleEnv.gravity, AdaptedCartPoleEnv.masspole,
    AdaptedCartPoleEnv.total_mass, AdaptedCartPoleEnv.masscart,
    AdaptedCartPoleEnv.length, AdaptedCartPoleEnv.polemass_length,
    Prod.mk.injEq]
  norm_num
  constructor <;> ring

theorem subStep_c9 :
    AdaptedCartPoleEnv.subStep trig0 10 ⟨0, 0, 0, 100⟩ =
      ⟨0, 202 / 1909, 1, 10⟩ := by
  have hacc := accels_at_zero trig0 (by norm_num [trig0]) (by norm_num [trig0])
    10 0 0 100
  apply StateQ.ext4
  · rw [subStep_x, simu_time_eq]; norm_num
  · rw [subStep_x_dot, hacc]
    norm_num [AdaptedCartPoleEnv.bounceCond, AdaptedCartPoleEnv.is_in_range,
      AdaptedCartPoleEnv.x_threshold, AdaptedCartPoleEnv.restitution,
      simu_time_eq, min_def, max_def]
  · rw [subStep_theta,
      show (0 : ℚ) + AdaptedCartPoleEnv.simu_time * 100 = 1 from by
        rw [simu_time_eq]; norm_num]
    exact wrapTheta_of_mem (by norm_num [piQ]) (by norm_num [piQ])
  · rw [subStep_theta_dot, hacc]
    norm_num [simu_time_eq, min_def, max_def]

theorem subStep_c4 :
    AdaptedCartPoleEnv.subStep trig0 10 ⟨0, 0, 0, 100 * piQ⟩ =
      ⟨0, 202 / 1909, -piQ, 10⟩ := by
  have hacc := accels_at_zero trig0 (by norm_num [trig0]) (by norm_num [trig0])
    10 0 0 (100 * piQ)
  apply StateQ.ext4
  · rw [subStep_x, simu_time_eq]; norm_num
  · rw [subStep_x_dot, hacc]
    norm_num [AdaptedCartPoleEnv.bounceCond, AdaptedCartPoleEnv.is_in_range,
      AdaptedCartPoleEnv.x_threshold, AdaptedCartPoleEnv.restitution,
      simu_time_eq, min_def, max_def]
  · rw [subStep_theta,
      show (0 : ℚ) + AdaptedCartPoleEnv.simu_time * (100 * piQ) = piQ from by
        rw [simu_time_eq]; ring]
    exact wrapTheta_pi
  · rw [subStep_theta_dot, hacc]
    have h10 : (10 : ℚ) ≤ 100 * piQ + AdaptedCartPoleEnv.simu_time *
        (-(160 * 10 / 83)) := by
      rw [simu_time_eq]; norm_num [piQ]
    rw [min_eq_right h10, max_eq_left (by norm_num : (-10 : ℚ) ≤ 10)]

theorem isDone_c9 : AdaptedCartPoleEnv.isDone ⟨0, 202 / 1909, 1, 10⟩ = true := by
  norm_num [AdaptedCartPoleEnv.isDone, AdaptedCartPoleEnv.x_threshold, piQ]

theorem isDone_c4 :
    AdaptedCartPoleEnv.isDone ⟨0, 202 / 1909, -piQ, 10⟩ = true := by
  have h : |(-piQ)| = piQ := by
    rw [abs_neg, abs_of_nonneg (by norm_num [piQ] : (0 : ℚ) ≤ piQ)]
  simp only [AdaptedCartPoleEnv.isDone, AdaptedCartPoleEnv.x_threshold, h]
  norm_num [piQ]

theorem runSubsteps_c9 :
    AdaptedCartPoleEnv.runSubsteps trig0 10 AdaptedCartPoleEnv.sim_steps
      ⟨0, 0, 0, 100⟩ = ⟨0, 202 / 1909, 1, 10⟩ := by
  rw [sim_steps_eq, show (10 : ℕ) = 9 + 1 from rfl, runSubsteps_succ,
    subStep_c9, isDone_c9]
  simp

theorem runSubsteps_c4 :
    AdaptedCartPoleEnv.runSubsteps trig0 10 AdaptedCartPoleEnv.sim_steps
      ⟨0, 0, 0, 100 * piQ⟩ = ⟨0, 202 / 1909, -piQ, 10⟩ := by
  rw [sim_steps_eq, show (10 : ℕ) = 9 + 1 from rfl, runSubsteps_succ,
    subStep_c4, isDone_c4]
  simp

theorem forceOfB_one : AdaptedCartPoleEnv.forceOf 1 = 10 := by
  norm_num [AdaptedCartPoleEnv.forceOf, AdaptedCartPoleEnv.force_mag]

theorem stepB_eval_c9 :
    AdaptedCartPoleEnv.step trig0 ⟨⟨0, 0, 0, 100⟩, none⟩ 1 =
      (⟨⟨0, 202 / 1909, 1, 10⟩, some 0⟩, ⟨0.2 * piQ - 1, true, false⟩) := by
  simp only [AdaptedCartPoleEnv.step, forceOfB_one, runSubsteps_c9, isDone_c9]
  norm_num

theorem stepB_eval_c4 :
    AdaptedCartPoleEnv.step trig0 ⟨⟨0, 0, 0, 100 * piQ⟩, none⟩ 1 =
      (⟨⟨0, 202 / 1909, -piQ, 10⟩, some 0⟩, ⟨0.2 * piQ - piQ, true, false⟩) := by
  have h : |(-piQ)| = piQ := by
    rw [abs_neg, abs_of_nonneg (by norm_num [piQ] : (0 : ℚ) ≤ piQ)]
  simp only [AdaptedCartPoleEnv.step, forceOfB_one, runSubsteps_c4, isDone_c4, h]
  norm_num

/-! ## Concrete evaluations of variant A's step -/

theorem forceOfA_zero : CartPoleEnv.forceOf 0 = -10 := by
  norm_num [CartPoleEnv.forceOf, CartPoleEnv.force_mag]

theorem forceOfA_one : CartPoleEnv.forceOf 1 = 10 := by
  norm_num [CartPoleEnv.forceOf, CartPoleEnv.force_mag]

/-- Variant A's physics update from any state with θ = 0, for any trig model
that is exact at 0 (as the IEEE double functions are). -/
theorem physicsA_at_zero (t : Trig) (hc : t.cos 0 = 1) (hs : t.sin 0 = 0)
    (f x xd θd : ℚ) :
    CartPoleEnv.physics t f ⟨x, xd, 0, θd⟩ =
      ⟨x + xd / 50, xd + 4 * f / 205, θd / 50, θd - 6 * f / 205⟩ := by
  apply StateQ.ext4 <;>
    simp only [CartPoleEnv.physics, accelsAform, hc, hs,
      CartPoleEnv.gravity, CartPoleEnv.masspole, CartPoleEnv.total_mass,
      CartPoleEnv.masscart, CartPoleEnv.length, CartPoleEnv.polemass_length,
      CartPoleEnv.tau] <;>
    norm_num <;> ring

theorem physicsA_c5_1 :
    CartPoleEnv.physics trig0 (-10) ⟨2399/1000, 1/10, 0, 0⟩ =
      ⟨2401/1000, -39/410, 0, 12/41⟩ := by
  rw [physicsA_at_zero trig0 (by norm_num [trig0]) (by norm_num [trig0])]
  apply StateQ.ext4 <;> norm_num

theorem physicsA_c5_2 :
    CartPoleEnv.physics trig0 (-10) ⟨2401/1000, -39/410, 0, 12/41⟩ =
      ⟨98363/41000, -119/410, 6/1025, 24/41⟩ := by
  rw [physicsA_at_zero trig0 (by norm_num [trig0]) (by norm_num [trig0])]
  apply StateQ.ext4 <;> norm_num

theorem isDoneA_c5_1 :
    CartPoleEnv.isDone ⟨2401/1000, -39/410, 0, 12/41⟩ = true := by
  norm_num [CartPoleEnv.isDone, CartPoleEnv.x_threshold]

theorem isDoneA_c5_2 :
    CartPoleEnv.isDone ⟨98363/41000, -119/410, 6/1025, 24/41⟩ = false := by
  norm_num [CartPoleEnv.isDone, CartPoleEnv.x_threshold,
    CartPoleEnv.theta_threshold_radians, piQ]

theorem stepA_eval_c5_1 :
    CartPoleEnv.step trig0 ⟨⟨2399/1000, 1/10, 0, 0⟩, none⟩ 0 =
      (⟨⟨2401/1000, -39/410, 0, 12/41⟩, some 0⟩, ⟨1, true, false⟩) := by
  simp only [CartPoleEnv.step, forceOfA_zero, physicsA_c5_1, isDoneA_c5_1]
  norm_num

theorem stepA_eval_c5_2 :
    CartPoleEnv.step trig0 ⟨⟨2401/1000, -39/410, 0, 12/41⟩, some 0⟩ 0 =
      (⟨⟨98363/41000, -119/410, 6/1025, 24/41⟩, some 0⟩, ⟨1, false, false⟩) := by
  simp only [CartPoleEnv.step, forceOfA_zero, physicsA_c5_2, isDoneA_c5_2]
  norm_num

/-! ## Claim theorems -/

/-- Claim C1 (counterexample): variant B's acceleration computation is NOT
the variant A formula with variant B's own constants substituted.  At state
(0, 0, 0, 0) and force +10 — where the float trig functions give exactly
cos θ = 1, sin θ = 0, as `trig0` does — variant B yields θ̈ = -1600/83 while
the A formula with B's constants yields θ̈ = -800/83: they differ by the
factor 2 that B's `(self.length / 2.0)` denominator introduces. -/
theorem c1_counterexample :
    AdaptedCartPoleEnv.accels trig0 10 ⟨0, 0, 0, 0⟩ ≠
      accelsAform AdaptedCartPoleEnv.gravity AdaptedCartPoleEnv.masspole
        AdaptedCartPoleEnv.total_mass AdaptedCartPoleEnv.length
        AdaptedCartPoleEnv.polemass_length trig0 10 ⟨0, 0, 0, 0⟩ := by
  have h1 := accels_at_zero trig0 (by norm_num [trig0]) (by norm_num [trig0])
    10 0 0 0
  intro h
  rw [h1] at h
  have h2 := congrArg Prod.fst h
  simp only [accelsAform, trig0,
    AdaptedCartPoleEnv.gravity, AdaptedCartPoleEnv.masspole,
    AdaptedCartPoleEnv.total_mass, AdaptedCartPoleEnv.masscart,
    AdaptedCartPoleEnv.length, AdaptedCartPoleEnv.polemass_length] at h2
  norm_num at h2

/-- Claim C1 (amended): variant B's accelerations equal the variant A
computation with B's constants after substituting `length / 2` for the length
factor of the θ̈ denominator; `temp` and `ẍ` are otherwise identical in form.
This holds for every trig model, state and force. -/
theorem c1_amended :
    ∀ (t : Trig) (f : ℚ) (s : StateQ),
      AdaptedCartPoleEnv.accels t f s =
        accelsAform AdaptedCartPoleEnv.gravity AdaptedCartPoleEnv.masspole
          AdaptedCartPoleEnv.total_mass (AdaptedCartPoleEnv.length / 2)
          AdaptedCartPoleEnv.polemass_length t f s :=
  fun _ _ _ => rfl

/-- Claim C2 (counterexample): with termination already recorded
(`steps_beyond_done = some 0`) and terminal state (3, 1, 0, 0) (x = 3 exceeds
the 2.4 threshold), variant A's step still performs the physics update: the
returned state has x = 3 + 0.02·1 = 3.02, so it is not the state passed in. -/
theorem c2_counterexample :
    (CartPoleEnv.step trig0 ⟨⟨3, 1, 0, 0⟩, some 0⟩ 1).1.state ≠
      ⟨3, 1, 0, 0⟩ := by
  rw [stepA_state, forceOfA_one,
    physicsA_at_zero trig0 (by norm_num [trig0]) (by norm_num [trig0])]
  intro h
  have hx := congrArg StateQ.x h
  norm_num at hx

/-- Claim C2 (amended): post-termination step calls still perform the physics
update, in both variants: the state component of the result is the full
physics update of the input state, regardless of the episode-status counter
(the state is not frozen once terminal). -/
theorem c2_amended :
    ∀ (t : Trig) (s : StateQ) (c : Option ℕ) (a : ℤ),
      (CartPoleEnv.step t ⟨s, c⟩ a).1.state =
        CartPoleEnv.physics t (CartPoleEnv.forceOf a) s ∧
      (AdaptedCartPoleEnv.step t ⟨s, c⟩ a).1.state =
        AdaptedCartPoleEnv.runSubsteps t (AdaptedCartPoleEnv.forceOf a)
          AdaptedCartPoleEnv.sim_steps s :=
  fun t s c a => ⟨stepA_state t ⟨s, c⟩ a, stepB_state t ⟨s, c⟩ a⟩

/-- Claim C3 (code evaluation at the failing input): in variant B's sub-step
from state (-9.95, -10, 0, 0) with force +10, the pre-update x = -9.95 lies
inside the band [-x_threshold, x_threshold] and the post-update
x = -10.05 lies below its lower bound, yet the bounce guard
(`isOOB and not wasOOB`, built on the broken `_is_in_range`) is false and ẋ
remains negative (pointing away from the track center), contradicting the
claimed lower-wall bounce. -/
theorem c3_code_eval :
    (-AdaptedCartPoleEnv.x_threshold ≤ (-199/20 : ℚ) ∧
      (-199/20 : ℚ) ≤ AdaptedCartPoleEnv.x_threshold) ∧
    (AdaptedCartPoleEnv.subStep trig0 10 ⟨-199/20, -10, 0, 0⟩).x <
      -AdaptedCartPoleEnv.x_threshold ∧
    AdaptedCartPoleEnv.bounceFires ⟨-199/20, -10, 0, 0⟩ = false ∧
    (AdaptedCartPoleEnv.subStep trig0 10 ⟨-199/20, -10, 0, 0⟩).x_dot < 0 := by
  have hacc := accels_at_zero trig0 (by norm_num [trig0]) (by norm_num [trig0])
    10 (-199/20) (-10) 0
  refine ⟨⟨by norm_num [AdaptedCartPoleEnv.x_threshold],
    by norm_num [AdaptedCartPoleEnv.x_threshold]⟩, ?_, ?_, ?_⟩
  · rw [subStep_x, simu_time_eq]
    norm_num [AdaptedCartPoleEnv.x_threshold]
  · norm_num [AdaptedCartPoleEnv.bounceFires, AdaptedCartPoleEnv.bounceCond,
      AdaptedCartPoleEnv.is_in_range, AdaptedCartPoleEnv.x_threshold,
      simu_time_eq]
  · rw [subStep_x_dot, hacc]
    norm_num [AdaptedCartPoleEnv.bounceCond, AdaptedCartPoleEnv.is_in_range,
      AdaptedCartPoleEnv.x_threshold, AdaptedCartPoleEnv.restitution,
      simu_time_eq, min_def, max_def]

/-- Claim C4 (counterexample): from state (0, 0, 0, 100·π) — whose first
sub-step consults the trig functions only at θ = 0 — the integrated angle is
exactly π, which the normalization loops map to -π; the step returns
θ = -π, which does NOT lie in the claimed interval (-π, π]. -/
theorem c4_counterexample :
    (AdaptedCartPoleEnv.step trig0 ⟨⟨0, 0, 0, 100 * piQ⟩, none⟩ 1).1.state.theta
      = -piQ ∧
    ¬(-piQ <
      (AdaptedCartPoleEnv.step trig0 ⟨⟨0, 0, 0, 100 * piQ⟩, none⟩ 1).1.state.theta) := by
  have h : (AdaptedCartPoleEnv.step trig0 ⟨⟨0, 0, 0, 100 * piQ⟩, none⟩ 1).1.state.theta
      = -piQ := by rw [stepB_eval_c4]
  exact ⟨h, by rw [h]; exact lt_irrefl _⟩

/-- Claim C4 (amended): after each sub-step's integration the pole angle is
wrapped by subtracting 2π while θ ≥ π and adding 2π while θ < -π, so for
every trig model, input state and action the θ component of the state
returned by variant B's step lies in the half-open interval [-π, π). -/
theorem c4_amended :
    ∀ (t : Trig) (e : Env) (a : ℤ),
      -piQ ≤ (AdaptedCartPoleEnv.step t e a).1.state.theta ∧
      (AdaptedCartPoleEnv.step t e a).1.state.theta < piQ := by
  intro t e a
  rw [stepB_state, sim_steps_eq, show (10 : ℕ) = 9 + 1 from rfl]
  exact runSubsteps_theta_mem t _ 9 e.state

/-- Claim C5 (counterexample): in variant A from state (2.399, 0.1, 0, 0) with
action 0, the first step terminates (x = 2.401 > 2.4, done = True, counter set
to 0), but the next step call — without any reset — returns reward 1.0 and
done = False, not reward 0.0 and done = True: the physics keeps evolving and
the cart re-enters the allowed region (x = 2.3991). -/
theorem c5_counterexample :
    (CartPoleEnv.step trig0 ⟨⟨2399/1000, 1/10, 0, 0⟩, none⟩ 0).2.done = true ∧
    (CartPoleEnv.step trig0 ⟨⟨2399/1000, 1/10, 0, 0⟩, none⟩ 0).1.steps_beyond_done
      = some 0 ∧
    (CartPoleEnv.step trig0
      (CartPoleEnv.step trig0 ⟨⟨2399/1000, 1/10, 0, 0⟩, none⟩ 0).1 0).2.reward
      = 1 ∧
    (CartPoleEnv.step trig0
      (CartPoleEnv.step trig0 ⟨⟨2399/1000, 1/10, 0, 0⟩, none⟩ 0).1 0).2.done
      = false := by
  simp only [stepA_eval_c5_1, stepA_eval_c5_2]
  norm_num

/-- Claim C5 (amended): once the episode-status counter is set
(`steps_beyond_done = some k`), a further step call returns reward 0.0 exactly
when its own recomputed termination check is true; when the evolving state has
re-entered the allowed region the call returns done = False together with the
live reward (1.0 in variant A, 0.2π - |θ| in variant B), so termination is
not absorbing without a reset. -/
theorem c5_amended :
    ∀ (t : Trig) (s : StateQ) (k : ℕ) (a : ℤ),
      (CartPoleEnv.step t ⟨s, some k⟩ a).2.reward =
        (if (CartPoleEnv.step t ⟨s, some k⟩ a).2.done = true then 0 else 1) ∧
      (AdaptedCartPoleEnv.step t ⟨s, some k⟩ a).2.reward =
        (if (AdaptedCartPoleEnv.step t ⟨s, some k⟩ a).2.done = true then 0
         else 0.2 * piQ -
           |(AdaptedCartPoleEnv.step t ⟨s, some k⟩ a).1.state.theta|) := by
  intro t s k a
  constructor
  · cases hA : CartPoleEnv.isDone
      (CartPoleEnv.physics t (CartPoleEnv.forceOf a) s)
    · simp [CartPoleEnv.step, hA]
      norm_num
    · simp [CartPoleEnv.step, hA]
      norm_num
  · cases hB : AdaptedCartPoleEnv.isDone
      (AdaptedCartPoleEnv.runSubsteps t (AdaptedCartPoleEnv.forceOf a)
        AdaptedCartPoleEnv.sim_steps s)
    · simp [AdaptedCartPoleEnv.step, hB]
    · simp [AdaptedCartPoleEnv.step, hB]
      norm_num

/-- Claim C6 (confirmed): for action in {0,1}, variant A's step maps action 1
to +force_mag and otherwise to -force_mag and produces exactly the state given
by the spec's formulas for temp, θ̈, ẍ and the Euler update (position/angle
from start-of-step velocities, velocities from the accelerations), as captured
by the spec-side definition `physicsSpecA`. -/
theorem c6_theorem :
    ∀ (t : Trig) (s : StateQ) (c : Option ℕ) (a : ℤ), a = 0 ∨ a = 1 →
      (CartPoleEnv.step t ⟨s, c⟩ a).1.state =
        physicsSpecA t
          (if a = 1 then CartPoleEnv.force_mag else -CartPoleEnv.force_mag) s := by
  intro t s c a _
  rw [stepA_state]
  apply StateQ.ext4 <;>
    simp only [CartPoleEnv.physics, accelsAform, physicsSpecA,
      CartPoleEnv.forceOf] <;>
    ring

/-- Witness for C6 at the concrete input a = 1, state (0,0,0,0). -/
theorem c6_witness :
    ((1 : ℤ) = 0 ∨ (1 : ℤ) = 1) ∧
    (CartPoleEnv.step trig0 ⟨⟨0, 0, 0, 0⟩, none⟩ 1).1.state =
      physicsSpecA trig0
        (if (1 : ℤ) = 1 then CartPoleEnv.force_mag else -CartPoleEnv.force_mag)
        ⟨0, 0, 0, 0⟩ :=
  ⟨Or.inr rfl, c6_theorem trig0 ⟨0, 0, 0, 0⟩ none 1 (Or.inr rfl)⟩

/-- Claim C7 (counterexample): from state (2.399, 0.1, 0, 0), action sequence
[0, 0] in variant A: the first call terminates and sets the counter, so the
second call is a post-termination call — yet zero warnings are emitted (its
own done check is false again), not exactly one on the first post-termination
call. -/
theorem c7_counterexample :
    (CartPoleEnv.step trig0 ⟨⟨2399/1000, 1/10, 0, 0⟩, none⟩ 0).1.steps_beyond_done
      = some 0 ∧
    runWarns (CartPoleEnv.step trig0) ⟨⟨2399/1000, 1/10, 0, 0⟩, none⟩ [0, 0]
      = 0 := by
  simp only [runWarns, stepA_eval_c5_1, stepA_eval_c5_2]
  norm_num

/-- Claim C7 (amended): in both variants, across any action sequence from a
freshly reset environment (counter = none), at most one misuse warning is
emitted: a warning requires the counter to be exactly 0 and sets it to 1, and
the counter never returns to 0 without a reset.  (The warning can come later
than the first post-termination call, or never, when the state re-enters the
allowed region.) -/
theorem c7_amended :
    ∀ (t : Trig) (s : StateQ) (acts : List ℤ),
      runWarns (CartPoleEnv.step t) ⟨s, none⟩ acts ≤ 1 ∧
      runWarns (AdaptedCartPoleEnv.step t) ⟨s, none⟩ acts ≤ 1 :=
  fun t s acts =>
    ⟨runWarns_le_one _ (stepA_warnDiscipline t) acts ⟨s, none⟩ (Or.inl rfl),
     runWarns_le_one _ (stepB_warnDiscipline t) acts ⟨s, none⟩ (Or.inl rfl)⟩

/-- Claim C8 (confirmed): in both variants, step fails its action assertion
exactly when the action is not in {0, 1}; for a valid action the checked step
always succeeds. -/
theorem c8_theorem :
    ∀ (t : Trig) (e : Env) (a : ℤ),
      (CartPoleEnv.stepChecked t e a = none ↔ ¬(a = 0 ∨ a = 1)) ∧
      (AdaptedCartPoleEnv.stepChecked t e a = none ↔ ¬(a = 0 ∨ a = 1)) := by
  intro t e a
  have hA : CartPoleEnv.contains a = true ↔ (a = 0 ∨ a = 1) := by
    simp only [CartPoleEnv.contains, Bool.and_eq_true, decide_eq_true_eq]
    omega
  have hB : AdaptedCartPoleEnv.contains a = true ↔ (a = 0 ∨ a = 1) := by
    simp only [AdaptedCartPoleEnv.contains, Bool.and_eq_true, decide_eq_true_eq]
    omega
  constructor
  · rw [CartPoleEnv.stepChecked]
    split
    · rename_i hc
      exact ⟨fun h => absurd h (by simp), fun h => absurd (hA.mp hc) h⟩
    · rename_i hc
      exact ⟨fun _ hor => hc (hA.mpr hor), fun _ => rfl⟩
  · rw [AdaptedCartPoleEnv.stepChecked]
    split
    · rename_i hc
      exact ⟨fun h => absurd h (by simp), fun h => absurd (hB.mp hc) h⟩
    · rename_i hc
      exact ⟨fun _ hor => hc (hB.mpr hor), fun _ => rfl⟩

/-- Claim C9 (confirmed): in variant B, every step returning done = False pays
reward 0.2π - |θ_final|, which lies in [0, 0.2π]; the first terminating step
(counter still none) pays the same unclamped formula; and there is an input
state and action for which that first terminating step's reward is strictly
negative (termination with |θ_final| > 0.2π). -/
theorem c9_theorem :
    (∀ (t : Trig) (e : Env) (a : ℤ),
      (AdaptedCartPoleEnv.step t e a).2.done = false →
        (AdaptedCartPoleEnv.step t e a).2.reward =
          0.2 * piQ - |(AdaptedCartPoleEnv.step t e a).1.state.theta| ∧
        0 ≤ (AdaptedCartPoleEnv.step t e a).2.reward ∧
        (AdaptedCartPoleEnv.step t e a).2.reward ≤ 0.2 * piQ) ∧
    (∀ (t : Trig) (e : Env) (a : ℤ),
      e.steps_beyond_done = none →
      (AdaptedCartPoleEnv.step t e a).2.done = true →
        (AdaptedCartPoleEnv.step t e a).2.reward =
          0.2 * piQ - |(AdaptedCartPoleEnv.step t e a).1.state.theta|) ∧
    (∃ (s : StateQ) (a : ℤ),
      (AdaptedCartPoleEnv.step trig0 ⟨s, none⟩ a).2.done = true ∧
      (AdaptedCartPoleEnv.step trig0 ⟨s, none⟩ a).2.reward < 0) := by
  refine ⟨?_, ?_, ?_⟩
  · intro t e a h
    rw [stepB_done] at h
    have hreq : (AdaptedCartPoleEnv.step t e a).2.reward =
        0.2 * piQ - |(AdaptedCartPoleEnv.step t e a).1.state.theta| := by
      simp [AdaptedCartPoleEnv.step, h]
    have hb : ¬(0.2 * piQ <
        |(AdaptedCartPoleEnv.runSubsteps t (AdaptedCartPoleEnv.forceOf a)
          AdaptedCartPoleEnv.sim_steps e.state).theta|) := by
      simp only [AdaptedCartPoleEnv.isDone, Bool.or_eq_false_iff,
        decide_eq_false_iff_not] at h
      exact h.2
    rw [not_lt] at hb
    have hth : (AdaptedCartPoleEnv.step t e a).1.state.theta =
        (AdaptedCartPoleEnv.runSubsteps t (AdaptedCartPoleEnv.forceOf a)
          AdaptedCartPoleEnv.sim_steps e.state).theta := by
      rw [stepB_state]
    refine ⟨hreq, ?_, ?_⟩
    · rw [hreq, hth]
      linarith
    · rw [hreq, hth]
      have := abs_nonneg ((AdaptedCartPoleEnv.runSubsteps t
        (AdaptedCartPoleEnv.forceOf a) AdaptedCartPoleEnv.sim_steps
        e.state).theta)
      linarith
  · intro t e a h1 h2
    rw [stepB_done] at h2
    simp [AdaptedCartPoleEnv.step, h1, h2]
  · refine ⟨⟨0, 0, 0, 100⟩, 1, by rw [stepB_eval_c9], ?_⟩
    rw [stepB_eval_c9]
    norm_num [piQ]

/-- Witness for C9 applied at the concrete input: state (0, 0, 0, 100) with
counter none terminates on its first sub-step (θ reaches 1), and the theorem's
first-terminating-step clause gives its reward formula. -/
theorem c9_witness :
    (AdaptedCartPoleEnv.step trig0 ⟨⟨0, 0, 0, 100⟩, none⟩ 1).2.reward =
      0.2 * piQ -
        |(AdaptedCartPoleEnv.step trig0 ⟨⟨0, 0, 0, 100⟩, none⟩ 1).1.state.theta| :=
  c9_theorem.2.1 trig0 ⟨⟨0, 0, 0, 100⟩, none⟩ 1 rfl (by rw [stepB_eval_c9])

/-- Claim C10 (confirmed): whenever a variant B sub-step fires the bounce
guard and the post-update x strictly exceeds x_threshold, the end-of-sub-step
termination check is true, the sub-step loop stops immediately (with any
remaining fuel), and the resulting ẋ is non-positive (redirected toward the
track center) — the bounce never prevents termination. -/
theorem c10_theorem (t : Trig) (f : ℚ) (s : StateQ) (n : ℕ)
    (hb : AdaptedCartPoleEnv.bounceFires s = true)
    (hx : AdaptedCartPoleEnv.x_threshold <
      (AdaptedCartPoleEnv.subStep t f s).x) :
    AdaptedCartPoleEnv.isDone (AdaptedCartPoleEnv.subStep t f s) = true ∧
    AdaptedCartPoleEnv.runSubsteps t f (n + 1) s =
      AdaptedCartPoleEnv.subStep t f s ∧
    (AdaptedCartPoleEnv.subStep t f s).x_dot ≤ 0 := by
  have habs : AdaptedCartPoleEnv.x_threshold <
      |(AdaptedCartPoleEnv.subStep t f s).x| :=
    lt_of_lt_of_le hx (le_abs_self _)
  have hdone : AdaptedCartPoleEnv.isDone (AdaptedCartPoleEnv.subStep t f s)
      = true := by
    simp only [AdaptedCartPoleEnv.isDone, Bool.or_eq_true, decide_eq_true_eq]
    exact Or.inl habs
  refine ⟨hdone, ?_, ?_⟩
  · rw [runSubsteps_succ, hdone]
    simp
  · rw [subStep_x_dot]
    have hb' : AdaptedCartPoleEnv.bounceCond s.x
        (s.x + AdaptedCartPoleEnv.simu_time * s.x_dot) = true := hb
    rw [subStep_x] at hx
    rw [if_pos hb', if_pos hx]
    apply max_le
    · exact le_trans (min_le_left _ _) (neg_nonpos.mpr (abs_nonneg _))
    · norm_num

/-- Witness for C10 at the concrete input: state (9.95, 10, 0, 0), force +10:
the sub-step crosses the upper wall (x = 10.05), the bounce fires, the
termination check holds, the loop stops, and ẋ is non-positive. -/
theorem c10_witness :
    AdaptedCartPoleEnv.bounceFires ⟨199/20, 10, 0, 0⟩ = true ∧
    AdaptedCartPoleEnv.x_threshold <
      (AdaptedCartPoleEnv.subStep trig0 10 ⟨199/20, 10, 0, 0⟩).x ∧
    AdaptedCartPoleEnv.isDone
      (AdaptedCartPoleEnv.subStep trig0 10 ⟨199/20, 10, 0, 0⟩) = true ∧
    AdaptedCartPoleEnv.runSubsteps trig0 10 1 ⟨199/20, 10, 0, 0⟩ =
      AdaptedCartPoleEnv.subStep trig0 10 ⟨199/20, 10, 0, 0⟩ ∧
    (AdaptedCartPoleEnv.subStep trig0 10 ⟨199/20, 10, 0, 0⟩).x_dot ≤ 0 := by
  have hb : AdaptedCartPoleEnv.bounceFires ⟨199/20, 10, 0, 0⟩ = true := by
    norm_num [AdaptedCartPoleEnv.bounceFires, AdaptedCartPoleEnv.bounceCond,
      AdaptedCartPoleEnv.is_in_range, AdaptedCartPoleEnv.x_threshold,
      simu_time_eq]
  have hx : AdaptedCartPoleEnv.x_threshold <
      (AdaptedCartPoleEnv.subStep trig0 10 ⟨199/20, 10, 0, 0⟩).x := by
    rw [subStep_x, simu_time_eq]
    norm_num [AdaptedCartPoleEnv.x_threshold]
  obtain ⟨h1, h2, h3⟩ := c10_theorem trig0 10 ⟨199/20, 10, 0, 0⟩ 0 hb hx
  exact ⟨hb, hx, h1, h2, h3⟩
